import Mathlib

/-!
Shallow embedding of the `state-threads-note` cooperative threading runtime
(`src/sched.c`, `src/sync.c`, `src/event.c`, `src/io.c`, `src/key.c`) in Lean 4,
together with theorems checking the natural-language specification against it.

Modelling conventions:
* C `int`/`u64` values are `Nat` or `Int`; bitmasks over the poll/epoll event
  bits are `Nat` with `&&&`/`|||`.
* The per-thread flag word is a structure of booleans, one per flag bit of
  `common.h`; `flags |= F` / `flags &= ~F` become field updates.
* Loops that walk pointer structures are translated to structural or
  fuel-indexed recursion; a fuel-indexed function returns `none` when the fuel
  runs out, so `(∀ fuel, f fuel x = none)` states that the C loop diverges,
  and dereferencing a null pointer is also modelled by `none`.
* A blocking call is split into its entry phase and its resume phase; the
  scheduler decisions in between (which queue woke the thread, which revents
  dispatch latched) are parameters of the resume phase.
-/

set_option linter.unusedVariables false

set_option linter.unnecessarySeqFocus false

set_option linter.unusedTactic false

/-! ## Constants from common.h and errno values -/

def _ST_ST_RUNNING : Nat := 0

def _ST_ST_RUNNABLE : Nat := 1

def _ST_ST_IO_WAIT : Nat := 2

def _ST_ST_LOCK_WAIT : Nat := 3

def _ST_ST_COND_WAIT : Nat := 4

def _ST_ST_SLEEPING : Nat := 5

def _ST_ST_ZOMBIE : Nat := 6

def _ST_ST_SUSPENDED : Nat := 7

def EPERM : Nat := 1

def EINTR : Nat := 4

def EBADF : Nat := 9

def EAGAIN : Nat := 11

def EBUSY : Nat := 16

def EINVAL : Nat := 22

def EDEADLOCK : Nat := 35

def ETIME : Nat := 62

def POLLIN : Nat := 1

def POLLPRI : Nat := 2

def POLLOUT : Nat := 4

def POLLERR : Nat := 8

def POLLHUP : Nat := 16

def POLLNVAL : Nat := 32

def EPOLLIN : Nat := 1

def EPOLLPRI : Nat := 2

def EPOLLOUT : Nat := 4

def ST_KEYS_MAX : Nat := 16

/-- Per-thread flag word of `common.h` (`_ST_FL_*` bits), one boolean per bit. -/
structure StFlags where
  primordial : Bool := false
  idleThread : Bool := false
  onSleepq : Bool := false
  interrupt : Bool := false
  timedout : Bool := false
deriving DecidableEq, Repr

/-- Entry of a caller-owned `struct pollfd` array: `fd`, requested `events`
bitmask, and the `revents` bitmask filled in by dispatch. -/
structure PollFd where
  fd : Nat
  events : Nat
  revents : Nat
deriving DecidableEq, Repr

/-! ## Sleep heap (sched.c lines 292-418)

The sleep queue is a pointer-linked binary tree of thread control blocks.  A
tree node carries the fields of the thread that the heap code reads or writes:
its identity, `due`, and `heap_index`.  The slot pointer `p` of the C code is
represented by a path from the root (`false` = left, `true` = right). -/

/-- Binary tree of sleeping threads: either a null pointer or a node
`nd id due heap_index left right`. -/
inductive HTree where
  | nil : HTree
  | nd : Nat → Nat → Nat → HTree → HTree → HTree
deriving DecidableEq, Repr

/-- Identity and `due` field of a thread being carried through `heap_insert`. -/
structure Elem where
  id : Nat
  due : Nat
deriving DecidableEq, Repr

/-- Number of nodes of a heap tree. -/
def heapCount : HTree → Nat
  | HTree.nil => 0
  | HTree.nd _ _ _ l r => 1 + heapCount l + heapCount r

/-- Subtree of `t` at the end of path `bs`; `none` when the walk dereferences a
null pointer (asks for a child of `nil`). -/
def getSub : HTree → List Bool → Option HTree
  | t, [] => some t
  | HTree.nil, _ :: _ => none
  | HTree.nd _ _ _ l r, b :: bs => getSub (if b then r else l) bs

/-- Replace the subtree of `t` at the end of path `bs` by `s`; `none` when the
walk dereferences a null pointer. -/
def setSub : HTree → List Bool → HTree → Option HTree
  | _, [], s => some s
  | HTree.nil, _ :: _, _ => none
  | HTree.nd i d h l r, b :: bs, s =>
    if b then (setSub r bs s).map (fun r2 => HTree.nd i d h l r2)
    else (setSub l bs s).map (fun l2 => HTree.nd i d h l2 r)

/-- Fuel-indexed translation of the first loop of `heap_insert`
(sched.c lines 301-304): `while (s) { s >> 1; bits++; }`.  The loop body
computes `s >> 1` but never assigns it back to `s`, exactly as in the source,
so `s` is passed unchanged to the recursive call. -/
def bitsLoopFuel : Nat → Nat → Nat → Option Nat
  | 0, _, _ => none
  | fuel + 1, s, bits => if s = 0 then some bits else bitsLoopFuel fuel s (bits + 1)

/-- Descent loop of `heap_insert` (sched.c lines 307-327).  The first argument
is the number of remaining iterations (`bit` runs from `bits - 2` down to `0`,
so with `r + 1` iterations left the current bit is `r`).  Returns the rebuilt
subtree together with the path from this slot to the slot `p` returned by the
C function.  `none` models the null dereference `(*p)->due` on a null slot. -/
def heapInsertLoop : Nat → Elem → Nat → Nat → HTree → Option (HTree × List Bool)
  | 0, e, _target, index, _t =>
    some (HTree.nd e.id e.due index HTree.nil HTree.nil, [])
  | r + 1, e, target, index, t =>
    match t with
    | HTree.nil => none
    | HTree.nd i d hidx l rt =>
      let (topId, topDue, topIdx, carried) :=
        if e.due < d then (e.id, e.due, index, (⟨i, d⟩ : Elem))
        else (i, d, hidx, e)
      if target.testBit r then
        match heapInsertLoop r carried target (2 * index + 1) rt with
        | none => none
        | some (rt2, path) => some (HTree.nd topId topDue topIdx l rt2, true :: path)
      else
        match heapInsertLoop r carried target (2 * index) l with
        | none => none
        | some (l2, path) => some (HTree.nd topId topDue topIdx l2 rt, false :: path)

/-- Translation of `heap_insert` (sched.c lines 293-329).  `target` is the
`heap_index` of the inserted thread at entry.  The bit-counting loop is the
divergent `while (s) { s >> 1; bits++; }` loop, modelled with fuel; when it
completes, the descent walks `bits - 1` steps.  Returns the new tree and the
path to the returned slot `p`. -/
def heap_insert (fuel : Nat) (e : Elem) (target : Nat) (root : HTree) :
    Option (HTree × List Bool) :=
  match bitsLoopFuel fuel target 0 with
  | none => none
  | some bits => heapInsertLoop (bits - 1) e target 1 root

/-- Bit-counting loop of `heap_delete` (sched.c lines 340-343), which correctly
uses `s >>= 1`, written with a structural fuel argument so that it reduces in
the kernel; `s` itself is enough fuel because halving reaches `0` within `s`
steps. -/
def countBitsFuel : Nat → Nat → Nat
  | 0, _ => 0
  | fuel + 1, s => if s = 0 then 0 else countBitsFuel fuel (s / 2) + 1

/-- Number of bits of the heap size, as computed by `heap_delete`. -/
def countBits (s : Nat) : Nat := countBitsFuel s s

/-- Path from the root to the last heap element, read off the bits of the heap
size from bit `bits - 2` down to bit `0` (sched.c lines 344-350). -/
def lastPath (size : Nat) : List Bool :=
  (List.range (countBits size - 1)).reverse.map (fun b => size.testBit b)

/-- Sift-down loop of `heap_delete` (sched.c lines 367-399), fuel-indexed.
The node argument is the element `t` sitting at slot `p` with its current
children; a rotation moves the younger child `y` up, swaps the two
`heap_index` fields, and continues below. -/
def siftDown : Nat → HTree → Option HTree
  | 0, _ => none
  | _ + 1, HTree.nil => some HTree.nil
  | fuel + 1, HTree.nd i d hidx l r =>
    match l, r with
    | HTree.nil, _ => some (HTree.nd i d hidx l r)
    | HTree.nd li ld lh ll lr, HTree.nil =>
      if d > ld then
        (siftDown fuel (HTree.nd i d lh ll lr)).map
          (fun sub => HTree.nd li ld hidx sub HTree.nil)
      else some (HTree.nd i d hidx l r)
    | HTree.nd li ld lh ll lr, HTree.nd ri rd rh rl rr =>
      if ld < rd then
        if d > ld then
          (siftDown fuel (HTree.nd i d lh ll lr)).map
            (fun sub => HTree.nd li ld hidx sub (HTree.nd ri rd rh rl rr))
        else some (HTree.nd i d hidx l r)
      else
        if d > rd then
          (siftDown fuel (HTree.nd i d rh rl rr)).map
            (fun sub => HTree.nd ri rd hidx (HTree.nd li ld lh ll lr) sub)
        else some (HTree.nd i d hidx l r)

/-- Translation of `heap_delete` (sched.c lines 332-402) deleting the thread
with identity `tid`, `heap_index` field `thidx` and child pointers `tl`, `tr`.
It unlinks the last heap element along `lastPath size`, decrements the size,
and, when the unlinked element is not the deleted thread, re-inserts it with
the deleted thread's `heap_index` via `heap_insert`, grafts the deleted
thread's children onto the slot, and sifts down.  `none` models a null-pointer
dereference or an exhausted fuel. -/
def heap_delete (fuel : Nat) (tid thidx : Nat) (tl tr : HTree) (root : HTree)
    (size : Nat) : Option (HTree × Nat) :=
  match getSub root (lastPath size) with
  | none => none
  | some t =>
    match setSub root (lastPath size) HTree.nil with
    | none => none
    | some root1 =>
      let size1 := size - 1
      match t with
      | HTree.nil => none
      | HTree.nd i d _hidx _l _r =>
        if i = tid then some (root1, size1)
        else
          match heap_insert fuel ⟨i, d⟩ thidx root1 with
          | none => none
          | some (root2, path2) =>
            match getSub root2 path2 with
            | none => none
            | some HTree.nil => none
            | some (HTree.nd i2 d2 hidx2 _ _) =>
              match siftDown fuel (HTree.nd i2 d2 hidx2 tl tr) with
              | none => none
              | some sub =>
                match setSub root2 path2 sub with
                | none => none
                | some root3 => some (root3, size1)

/-- Thread control-block fields touched by the sleep queue and the condition
variable wake path. -/
structure SFiber where
  id : Nat
  state : Nat
  flags : StFlags
  due : Nat
  heap_index : Nat
  left : HTree
  right : HTree
deriving DecidableEq, Repr

/-- Translation of `_st_add_sleep_q` (sched.c lines 405-412): set
`due = last_clock + timeout`, set the on-sleep-queue flag, assign
`heap_index = ++size`, and call `heap_insert`. -/
def _st_add_sleep_q (fuel : Nat) (f : SFiber) (timeout lastClock : Nat)
    (root : HTree) (size : Nat) : Option (HTree × Nat × SFiber) :=
  let f1 : SFiber :=
    { f with
      due := lastClock + timeout
      flags := { f.flags with onSleepq := true }
      heap_index := size + 1 }
  match heap_insert fuel ⟨f1.id, f1.due⟩ f1.heap_index root with
  | none => none
  | some (root2, _path) => some (root2, size + 1, f1)

/-- Translation of `_st_del_sleep_q` (sched.c lines 415-418): `heap_delete`
then clear the on-sleep-queue flag (and the child pointers, which
`heap_delete` nulls at its end). -/
def _st_del_sleep_q (fuel : Nat) (f : SFiber) (root : HTree) (size : Nat) :
    Option (HTree × Nat × SFiber) :=
  match heap_delete fuel f.id f.heap_index f.left f.right root size with
  | none => none
  | some (root2, size2) =>
    some (root2, size2,
      { f with
        flags := { f.flags with onSleepq := false }
        left := HTree.nil
        right := HTree.nil })

/-- Scheduler state seen by `_st_cond_signal`: the condition variable's wait
queue (in list order), the sleep heap with its recorded size, and the run
queue of thread ids. -/
structure CondState where
  waiters : List SFiber
  sleepq : HTree
  sleepqSize : Nat
  runq : List Nat
deriving Repr

/-- Translation of `_st_cond_signal` with `broadcast = 0` (sync.c lines
196-218): the loop takes the first waiter, calls `_ST_DEL_SLEEPQ` on it
whenever its state is `_ST_ST_COND_WAIT` (without consulting the
on-sleep-queue flag), marks it runnable, appends it to the run queue, and
breaks.  The waiter stays on the condvar wait queue (the woken thread unlinks
itself after resuming). -/
def _st_cond_signal (fuel : Nat) (s : CondState) : Option CondState :=
  match s.waiters with
  | [] => some s
  | w :: rest =>
    let afterDel :=
      if w.state = _ST_ST_COND_WAIT then
        _st_del_sleep_q fuel w s.sleepq s.sleepqSize
      else some (s.sleepq, s.sleepqSize, w)
    match afterDel with
    | none => none
    | some (root2, size2, w2) =>
      some { waiters := { w2 with state := _ST_ST_RUNNABLE } :: rest
             sleepq := root2
             sleepqSize := size2
             runq := s.runq ++ [w.id] }

/-! ## st_poll (sched.c lines 21-79) -/

/-- Entry interrupt check of `st_poll` (sched.c lines 28-33): when the
interrupt flag is set, clear it, set `errno = EINTR` and return `-1`; the
first component is `some (rv, errno)` on early return, `none` when the call
proceeds to suspend. -/
def st_poll_entry (f : StFlags) : Option (Int × Nat) × StFlags :=
  if f.interrupt then (some (-1, EINTR), { f with interrupt := false })
  else (none, f)

/-- Resume path of `st_poll` (sched.c lines 56-78), parameterised by the state
after the context switch: the pollfd array as dispatch left it, whether the
poll queue entry is still on the I/O queue, and the thread flags.  The local
`n` counts entries with nonzero requested `events` when the wake came from
dispatch; the function then returns `-1`/`EINTR` when interrupted and `0`
otherwise.  Returns `(rv, errno, flags)`. -/
def st_poll_resume (pds : List PollFd) (onIoq : Bool) (f : StFlags) :
    Int × Option Nat × StFlags :=
  let n : Int := if onIoq then 0 else (pds.countP (fun pd => pd.events ≠ 0) : Int)
  if f.interrupt then (-1, some EINTR, { f with interrupt := false })
  else (0, none, f)

/-- Number of pollfd entries with nonzero `revents`; the count the
specification says a dispatch-woken `st_poll` returns. -/
def readyCount (pds : List PollFd) : Nat :=
  pds.countP (fun pd => pd.revents ≠ 0)

/-! ## st_usleep, st_cond_timedwait, st_mutex_lock entry checks and
condition-variable resume (sync.c) -/

/-- Entry interrupt check of `st_usleep` (sync.c lines 75-82): sets
`errno = EINTR` and returns `-1`, but does not touch the flag word. -/
def st_usleep_entry (f : StFlags) : Option (Int × Nat) × StFlags :=
  if f.interrupt then (some (-1, EINTR), f)
  else (none, f)

/-- Entry interrupt check of `st_cond_timedwait` (sync.c lines 145-149): sets
`errno = EINTR` and returns `-1` without modifying the flag word. -/
def st_cond_timedwait_entry (f : StFlags) : Option (Int × Nat) × StFlags :=
  if f.interrupt then (some (-1, EINTR), f)
  else (none, f)

/-- Entry interrupt check of `st_mutex_lock` (sync.c lines 261-264): sets
`errno = EINTR` and returns `-1` without modifying the flag word. -/
def st_mutex_lock_entry (f : StFlags) : Option (Int × Nat) × StFlags :=
  if f.interrupt then (some (-1, EINTR), f)
  else (none, f)

/-- Resume path of `st_cond_timedwait` (sync.c lines 171-187): `rv = 0`; if
the interrupt flag is set, clear it, `errno = EINTR`, `rv = -1`; then, if the
timed-out flag is set, `errno = ETIME`, `rv = -1` (the timed-out flag is not
cleared).  Returns `(rv, errno, flags)`. -/
def st_cond_timedwait_resume (f : StFlags) : Int × Option Nat × StFlags :=
  let rv : Int := 0
  let en : Option Nat := none
  let (rv, en, f) :=
    if f.interrupt then (-1, some EINTR, { f with interrupt := false })
    else (rv, en, f)
  let (rv, en) :=
    if f.timedout then ((-1 : Int), some ETIME)
    else (rv, en)
  (rv, en, f)

/-! ## st_mutex_unlock (sync.c lines 299-323) -/

/-- Scan of the mutex wait queue (sync.c lines 309-318): the first thread
whose state is `_ST_ST_LOCK_WAIT`, given the thread-state table `st`. -/
def findLockWait (st : Nat → Nat) : List Nat → Option Nat
  | [] => none
  | t :: ts => if st t = _ST_ST_LOCK_WAIT then some t else findLockWait st ts

/-- Result of `st_mutex_unlock`: return value, `errno` when set, new owner
field, new thread-state table, new run queue. -/
structure UnlockResult where
  rv : Int
  errno : Option Nat
  owner : Option Nat
  st : Nat → Nat
  runq : List Nat

/-- Translation of `st_mutex_unlock` (sync.c lines 299-323).  `cur` is the
current thread, `owner`/`waitq` the mutex fields, `st` the state of every
thread, `runq` the run queue.  A non-owner gets `EPERM` and nothing changes;
otherwise the first waiting thread in `_ST_ST_LOCK_WAIT` state receives
ownership directly, becomes runnable and is appended to the run queue; when
there is none the owner field is cleared. -/
def st_mutex_unlock (cur : Nat) (owner : Option Nat) (waitq : List Nat)
    (st : Nat → Nat) (runq : List Nat) : UnlockResult :=
  if owner ≠ some cur then
    { rv := -1, errno := some EPERM, owner := owner, st := st, runq := runq }
  else
    match findLockWait st waitq with
    | some t =>
      { rv := 0, errno := none, owner := some t
        st := Function.update st t _ST_ST_RUNNABLE, runq := runq ++ [t] }
    | none =>
      { rv := 0, errno := none, owner := none, st := st, runq := runq }

/-! ## st_thread_create / st_thread_join (sched.c lines 487-533, 237-279) -/

/-- Thread control-block fields relevant to create/join: state, flags, and the
`term` condition variable pointer (`none` = NULL). -/
structure ThreadCB where
  state : Nat
  flags : StFlags
  term : Option Nat
deriving DecidableEq, Repr

/-- Translation of the control-block initialisation in `st_thread_create`
(sched.c lines 487-533): `memset(thread, 0, ...)` zeroes every field (so
`term = NULL`), then `state = _ST_ST_RUNNABLE` is assigned.  The `joinable`
parameter is never read by the function body. -/
def st_thread_create (joinable : Bool) : ThreadCB :=
  { state := _ST_ST_RUNNABLE, flags := {}, term := none }

/-- Argument checks of `st_thread_join` (sched.c lines 240-256): `EINVAL` when
the target's `term` is NULL (detached), `EDEADLOCK` when joining self,
`EINVAL` when the term condvar already has a waiter; `none` when the call
proceeds to wait for the zombie state. -/
def st_thread_join_precheck (t : ThreadCB) (isSelf : Bool)
    (termWaitqEmpty : Bool) : Option Nat :=
  if t.term = none then some EINVAL
  else if isSelf then some EDEADLOCK
  else if ¬ termWaitqEmpty then some EINVAL
  else none

/-! ## st_netfd_poll (io.c lines 166-188) -/

/-- Translation of `st_netfd_poll`, built on the `st_poll` model.  The pollfd
is initialised with `events = how`, `revents = 0`; the call is modelled under
a clear entry flag word and a successful `pollset_add`, with the wake outcome
given by `onIoq`, the flag word at resume, and the `revents` latched by
dispatch.  `st_poll`'s return value `n` then drives lines 174-187:
`n < 0` propagates, `n == 0` yields `ETIME`, `POLLNVAL` yields `EBADF`,
otherwise success. -/
def st_netfd_poll (fd how : Nat) (reventsAfter : Nat) (onIoq : Bool)
    (f : StFlags) : Int × Option Nat :=
  let pd : PollFd := { fd := fd, events := how, revents := reventsAfter }
  let r := st_poll_resume [pd] onIoq f
  let n := r.1
  if n < 0 then (-1, r.2.1)
  else if n = 0 then (-1, some ETIME)
  else if pd.revents &&& POLLNVAL ≠ 0 then (-1, some EBADF)
  else (0, none)

/-! ## Epoll pollset_del (event.c lines 154-191) -/

/-- Per-descriptor reactor bookkeeping (`_epoll_fd_data_t`): the three
interest reference counts and the latched `revents` word. -/
structure EpollFdData where
  rd : Int
  wr : Int
  ex : Int
  revents : Nat
deriving DecidableEq, Repr

/-- Computed kernel interest mask `_ST_EPOLL_EVENTS(fd)` (event.c lines
49-53). -/
def epollEvents (d : EpollFdData) : Nat :=
  (if d.rd > 0 then EPOLLIN else 0) |||
    (if d.wr > 0 then EPOLLOUT else 0) |||
      (if d.ex > 0 then EPOLLPRI else 0)

/-- An `epoll_ctl` operation issued by the reactor. -/
inductive EpollOp where
  | mod : EpollOp
  | del : EpollOp
deriving DecidableEq, Repr

/-- Reference-count decrements of the `_st_epoll_pollset_del` loop body
(event.c lines 168-173): each requested event bit decrements the matching
count. -/
def delDecrement (d : EpollFdData) (events : Nat) : EpollFdData :=
  let d1 := if events &&& POLLIN ≠ 0 then { d with rd := d.rd - 1 } else d
  let d2 := if events &&& POLLOUT ≠ 0 then { d1 with wr := d1.wr - 1 } else d1
  if events &&& POLLPRI ≠ 0 then { d2 with ex := d2.ex - 1 } else d2

/-- Body of the `_st_epoll_pollset_del` loop for one pollfd (event.c lines
164-190): remember the old interest mask, decrement the reference counts named
by the requested `events` bits, and issue a kernel MOD/DEL only when the mask
changed and the descriptor's latched `revents` is zero.  Returns the updated
table and the kernel call, if any, as `(op, fd, events)`. -/
def pollsetDelStep (data : Nat → EpollFdData) (pd : PollFd) :
    (Nat → EpollFdData) × Option (EpollOp × Nat × Nat) :=
  let old_events := epollEvents (data pd.fd)
  let d3 := delDecrement (data pd.fd) pd.events
  let events := epollEvents d3
  (Function.update data pd.fd d3,
    if events ≠ old_events ∧ d3.revents = 0 then
      some (if events ≠ 0 then EpollOp.mod else EpollOp.del, pd.fd, events)
    else none)

/-- Translation of `_st_epoll_pollset_del` over the whole pollfd array,
collecting the kernel calls it issues in order. -/
def pollsetDel (data : Nat → EpollFdData) :
    List PollFd → (Nat → EpollFdData) × List (EpollOp × Nat × Nat)
  | [] => (data, [])
  | pd :: rest =>
    let s := pollsetDelStep data pd
    let t := pollsetDel s.1 rest
    (t.1, s.2.toList ++ t.2)

/-! ## Thread-local storage keys (key.c) -/

/-- Translation of `st_key_create` (key.c lines 14-25): fails with `EAGAIN`
at the key limit, otherwise hands out `key_max` and increments it.  Returns
`(rv, errno, new key_max, key)`. -/
def st_key_create (keyMax : Nat) : Int × Option Nat × Nat × Option Nat :=
  if keyMax ≥ ST_KEYS_MAX then (-1, some EAGAIN, keyMax, none)
  else (0, none, keyMax + 1, some keyMax)

/-- Translation of `st_thread_setspecific` (key.c lines 32-49) on the current
thread's `private_data` slot array (a value of `none` is NULL): the key is
checked against `ST_KEYS_MAX`, and the slot is written when the value differs
(the destructor call does not affect the slots).  Returns
`(rv, errno, new slots)`. -/
def st_thread_setspecific (key : Int) (value : Option Nat)
    (pd : Int → Option Nat) : Int × Option Nat × (Int → Option Nat) :=
  if key < 0 ∨ key ≥ (ST_KEYS_MAX : Int) then (-1, some EINVAL, pd)
  else
    let pd2 := if value ≠ pd key then Function.update pd key value else pd
    (0, none, pd2)

/-- Translation of `st_thread_getspecific` (key.c lines 52-58): NULL for keys
outside `[0, key_max)`, otherwise the slot contents. -/
def st_thread_getspecific (keyMax : Nat) (key : Int) (pd : Int → Option Nat) :
    Option Nat :=
  if key < 0 ∨ key ≥ (keyMax : Int) then none
  else pd key

/-! ## Concrete fixtures used by the counterexample evaluations -/

/-- Sleep heap holding the single sleeping thread `1` with `due = 100` at the
root (`heap_index = 1`). -/
def c6Heap : HTree := HTree.nd 1 100 1 HTree.nil HTree.nil

/-- Thread `2` blocked in `st_cond_wait` without a timeout: state
`_ST_ST_COND_WAIT`, on-sleep-queue flag clear, `heap_index` still `0` from the
zeroed control block, null heap children. -/
def c6Waiter : SFiber :=
  { id := 2, state := _ST_ST_COND_WAIT, flags := {}, due := 0, heap_index := 0,
    left := HTree.nil, right := HTree.nil }

/-- Scheduler state before `st_cond_signal`: thread `2` is the only waiter,
thread `1` is the only sleeper, recorded heap size `1`, empty run queue. -/
def c6State : CondState :=
  { waiters := [c6Waiter], sleepq := c6Heap, sleepqSize := 1, runq := [] }

/-! ## Helper lemmas -/

/-- The bit-counting loop of `heap_insert` never terminates on a nonzero `s`,
for any amount of fuel, because its body `s >> 1;` does not modify `s`. -/
theorem bitsLoopFuel_none (s : Nat) (hs : s ≠ 0) :
    ∀ fuel bits, bitsLoopFuel fuel s bits = none := by
  intro fuel
  induction fuel with
  | zero => intro bits; rfl
  | succ n ih => intro bits; simpa [bitsLoopFuel, hs] using ih (bits + 1)

/-- The wait-queue scan of `st_mutex_unlock` finds the first thread in
`_ST_ST_LOCK_WAIT` state. -/
theorem findLockWait_eq_find (st : Nat → Nat) (l : List Nat) :
    findLockWait st l = l.find? (fun t => st t == _ST_ST_LOCK_WAIT) := by
  induction l with
  | nil => rfl
  | cons t ts ih =>
    cases hb : (st t == _ST_ST_LOCK_WAIT) with
    | false =>
      rw [findLockWait, if_neg (by simpa using hb), ih]
      exact (List.find?_cons_of_neg _ (by simp [hb])).symm
    | true =>
      rw [findLockWait, if_pos (by simpa using hb)]
      exact (List.find?_cons_of_pos (p := fun x => st x == _ST_ST_LOCK_WAIT) _ hb).symm

/-- The decrements of `pollset_del` do not touch the latched `revents`. -/
theorem delDecrement_revents (d : EpollFdData) (e : Nat) :
    (delDecrement d e).revents = d.revents := by
  unfold delDecrement
  split_ifs <;> rfl

/-- Read-count equation for the `pollset_del` decrements. -/
theorem delDecrement_rd (d : EpollFdData) (e : Nat) :
    (delDecrement d e).rd = d.rd - (if e &&& POLLIN ≠ 0 then 1 else 0) := by
  unfold delDecrement
  split_ifs <;> simp

/-- Write-count equation for the `pollset_del` decrements. -/
theorem delDecrement_wr (d : EpollFdData) (e : Nat) :
    (delDecrement d e).wr = d.wr - (if e &&& POLLOUT ≠ 0 then 1 else 0) := by
  unfold delDecrement
  split_ifs <;> simp

/-- Exception-count equation for the `pollset_del` decrements. -/
theorem delDecrement_ex (d : EpollFdData) (e : Nat) :
    (delDecrement d e).ex = d.ex - (if e &&& POLLPRI ≠ 0 then 1 else 0) := by
  unfold delDecrement
  split_ifs <;> simp

/-- One `pollset_del` iteration leaves every latched `revents` unchanged. -/
theorem pollsetDelStep_revents (data : Nat → EpollFdData) (pd : PollFd)
    (x : Nat) : ((pollsetDelStep data pd).1 x).revents = (data x).revents := by
  show (Function.update data pd.fd (delDecrement (data pd.fd) pd.events) x).revents = _
  by_cases hx : x = pd.fd
  · subst hx; rw [Function.update_same, delDecrement_revents]
  · rw [Function.update_noteq hx]

/-- Read-count effect of one `pollset_del` iteration on an arbitrary fd. -/
theorem pollsetDelStep_rd (data : Nat → EpollFdData) (pd : PollFd) (x : Nat) :
    ((pollsetDelStep data pd).1 x).rd =
      (data x).rd - (if pd.fd = x ∧ pd.events &&& POLLIN ≠ 0 then 1 else 0) := by
  show (Function.update data pd.fd (delDecrement (data pd.fd) pd.events) x).rd = _
  by_cases hx : x = pd.fd
  · subst hx
    rw [Function.update_same, delDecrement_rd]
    by_cases h : pd.events &&& POLLIN ≠ 0 <;> simp [h]
  · rw [Function.update_noteq hx]
    have : ¬ (pd.fd = x ∧ pd.events &&& POLLIN ≠ 0) := fun h => hx h.1.symm
    simp [this]

/-- Write-count effect of one `pollset_del` iteration on an arbitrary fd. -/
theorem pollsetDelStep_wr (data : Nat → EpollFdData) (pd : PollFd) (x : Nat) :
    ((pollsetDelStep data pd).1 x).wr =
      (data x).wr - (if pd.fd = x ∧ pd.events &&& POLLOUT ≠ 0 then 1 else 0) := by
  show (Function.update data pd.fd (delDecrement (data pd.fd) pd.events) x).wr = _
  by_cases hx : x = pd.fd
  · subst hx
    rw [Function.update_same, delDecrement_wr]
    by_cases h : pd.events &&& POLLOUT ≠ 0 <;> simp [h]
  · rw [Function.update_noteq hx]
    have : ¬ (pd.fd = x ∧ pd.events &&& POLLOUT ≠ 0) := fun h => hx h.1.symm
    simp [this]

/-- Exception-count effect of one `pollset_del` iteration on an arbitrary
fd. -/
theorem pollsetDelStep_ex (data : Nat → EpollFdData) (pd : PollFd) (x : Nat) :
    ((pollsetDelStep data pd).1 x).ex =
      (data x).ex - (if pd.fd = x ∧ pd.events &&& POLLPRI ≠ 0 then 1 else 0) := by
  show (Function.update data pd.fd (delDecrement (data pd.fd) pd.events) x).ex = _
  by_cases hx : x = pd.fd
  · subst hx
    rw [Function.update_same, delDecrement_ex]
    by_cases h : pd.events &&& POLLPRI ≠ 0 <;> simp [h]
  · rw [Function.update_noteq hx]
    have : ¬ (pd.fd = x ∧ pd.events &&& POLLPRI ≠ 0) := fun h => hx h.1.symm
    simp [this]

/-- When one `pollset_del` iteration issues a kernel call, the interest mask
of its fd changed and the latched `revents` of that fd was zero; the call
names the iteration's fd. -/
theorem pollsetDelStep_op (data : Nat → EpollFdData) (pd : PollFd)
    (o : EpollOp × Nat × Nat) (ho : (pollsetDelStep data pd).2 = some o) :
    epollEvents ((pollsetDelStep data pd).1 pd.fd) ≠ epollEvents (data pd.fd) ∧
      (data pd.fd).revents = 0 ∧ o.2.1 = pd.fd := by
  have hfst : (pollsetDelStep data pd).1 pd.fd
      = delDecrement (data pd.fd) pd.events := by
    show Function.update data pd.fd (delDecrement (data pd.fd) pd.events) pd.fd = _
    rw [Function.update_same]
  by_cases h : epollEvents (delDecrement (data pd.fd) pd.events)
      ≠ epollEvents (data pd.fd) ∧ (delDecrement (data pd.fd) pd.events).revents = 0
  · refine ⟨by rw [hfst]; exact h.1, by rw [← delDecrement_revents (data pd.fd) pd.events]; exact h.2, ?_⟩
    have : (pollsetDelStep data pd).2
        = some (if epollEvents (delDecrement (data pd.fd) pd.events) ≠ 0
            then EpollOp.mod else EpollOp.del, pd.fd,
            epollEvents (delDecrement (data pd.fd) pd.events)) := by
      show (if _ ∧ _ then _ else _) = _
      rw [if_pos h]
    rw [this] at ho
    cases ho
    rfl
  · have : (pollsetDelStep data pd).2 = none := by
      show (if _ ∧ _ then _ else _) = _
      rw [if_neg h]
    rw [this] at ho
    cases ho

/-- The whole `pollset_del` walk leaves every latched `revents` unchanged. -/
theorem pollsetDel_revents (pds : List PollFd) : ∀ (data : Nat → EpollFdData)
    (x : Nat), ((pollsetDel data pds).1 x).revents = (data x).revents := by
  induction pds with
  | nil => intro data x; rfl
  | cons pd rest ih =>
    intro data x
    show ((pollsetDel (pollsetDelStep data pd).1 rest).1 x).revents = _
    rw [ih, pollsetDelStep_revents]

/-- Read-count effect of the whole `pollset_del` walk. -/
theorem pollsetDel_rd (pds : List PollFd) : ∀ (data : Nat → EpollFdData)
    (x : Nat), ((pollsetDel data pds).1 x).rd =
      (data x).rd -
        (pds.countP (fun pd => pd.fd == x && pd.events &&& POLLIN != 0) : Int) := by
  induction pds with
  | nil => intro data x; simp [pollsetDel]
  | cons pd rest ih =>
    intro data x
    show ((pollsetDel (pollsetDelStep data pd).1 rest).1 x).rd = _
    rw [ih, pollsetDelStep_rd, List.countP_cons]
    by_cases h1 : pd.fd = x <;> by_cases h2 : pd.events &&& POLLIN ≠ 0 <;>
      simp [h1, h2] <;> push_cast <;> ring

/-- Write-count effect of the whole `pollset_del` walk. -/
theorem pollsetDel_wr (pds : List PollFd) : ∀ (data : Nat → EpollFdData)
    (x : Nat), ((pollsetDel data pds).1 x).wr =
      (data x).wr -
        (pds.countP (fun pd => pd.fd == x && pd.events &&& POLLOUT != 0) : Int) := by
  induction pds with
  | nil => intro data x; simp [pollsetDel]
  | cons pd rest ih =>
    intro data x
    show ((pollsetDel (pollsetDelStep data pd).1 rest).1 x).wr = _
    rw [ih, pollsetDelStep_wr, List.countP_cons]
    by_cases h1 : pd.fd = x <;> by_cases h2 : pd.events &&& POLLOUT ≠ 0 <;>
      simp [h1, h2] <;> push_cast <;> ring

/-- Exception-count effect of the whole `pollset_del` walk. -/
theorem pollsetDel_ex (pds : List PollFd) : ∀ (data : Nat → EpollFdData)
    (x : Nat), ((pollsetDel data pds).1 x).ex =
      (data x).ex -
        (pds.countP (fun pd => pd.fd == x && pd.events &&& POLLPRI != 0) : Int) := by
  induction pds with
  | nil => intro data x; simp [pollsetDel]
  | cons pd rest ih =>
    intro data x
    show ((pollsetDel (pollsetDelStep data pd).1 rest).1 x).ex = _
    rw [ih, pollsetDelStep_ex, List.countP_cons]
    by_cases h1 : pd.fd = x <;> by_cases h2 : pd.events &&& POLLPRI ≠ 0 <;>
      simp [h1, h2] <;> push_cast <;> ring

/-- No kernel call of a `pollset_del` walk names a descriptor whose latched
`revents` is nonzero. -/
theorem pollsetDel_no_op_latched (pds : List PollFd) : ∀ (data : Nat → EpollFdData)
    (x : Nat), (data x).revents ≠ 0 →
      ∀ o ∈ (pollsetDel data pds).2, o.2.1 ≠ x := by
  induction pds with
  | nil => intro data x h o ho; simp [pollsetDel] at ho
  | cons pd rest ih =>
    intro data x h o ho
    have hsplit : o ∈ (pollsetDelStep data pd).2.toList ∨
        o ∈ (pollsetDel (pollsetDelStep data pd).1 rest).2 := by
      have : (pollsetDel data (pd :: rest)).2
          = (pollsetDelStep data pd).2.toList
            ++ (pollsetDel (pollsetDelStep data pd).1 rest).2 := rfl
      rw [this] at ho
      exact List.mem_append.mp ho
    rcases hsplit with hm | hm
    · have hop : (pollsetDelStep data pd).2 = some o := by
        cases hs : (pollsetDelStep data pd).2 with
        | none => rw [hs] at hm; simp at hm
        | some o2 => rw [hs] at hm; simp at hm; subst hm; rfl
      have := pollsetDelStep_op data pd o hop
      intro hfd
      rw [hfd] at this
      have hx : pd.fd = x := this.2.2.symm ▸ rfl
      exact h (by rw [← hx]; exact this.2.1)
    · exact ih (pollsetDelStep data pd).1 x
        (by rw [pollsetDelStep_revents]; exact h) o hm

/-- In-range `st_thread_setspecific` succeeds and leaves the addressed slot
holding the stored value. -/
theorem setspecific_stores (k : Int) (v : Option Nat) (pd : Int → Option Nat)
    (hk0 : 0 ≤ k) (hlt : k < (ST_KEYS_MAX : Int)) :
    (st_thread_setspecific k v pd).1 = 0 ∧
      (st_thread_setspecific k v pd).2.2 k = v := by
  have hcond : ¬ (k < 0 ∨ k ≥ (ST_KEYS_MAX : Int)) := by
    push_neg
    exact ⟨hk0, hlt⟩
  rw [st_thread_setspecific, if_neg hcond]
  refine ⟨rfl, ?_⟩
  by_cases hv : v ≠ pd k
  · simp [hv, Function.update_same]
  · rw [not_not] at hv
    simp [hv]

/-! ## Claim theorems -/

/-- C1: the claim that `_st_add_sleep_q` / `heap_insert` terminates on every
non-empty heap is refuted: the bit-counting loop `while (s) { s >> 1; bits++; }`
never changes `s`, and `_st_add_sleep_q` always calls `heap_insert` with
`heap_index = size + 1 ≠ 0`, so for every amount of fuel — hence for every
number of loop iterations — the insertion fails to terminate, on empty and
non-empty heaps alike. -/
theorem c1_add_sleep_q_never_terminates :
    ∀ (fuel : Nat) (f : SFiber) (timeout lastClock : Nat) (root : HTree)
      (size : Nat), _st_add_sleep_q fuel f timeout lastClock root size = none := by
  intro fuel f timeout lastClock root size
  simp [_st_add_sleep_q, heap_insert,
    bitsLoopFuel_none (size + 1) (Nat.succ_ne_zero size)]

/-- C2: the claim is refuted at a concrete input: a `st_poll` waiter woken by
dispatch (taken off the I/O queue) whose single pollfd has nonzero `revents`
returns `0`, not the entry count `1`; the local counter `n` (which moreover
counts `events`, not `revents`) is discarded by the final `return 0`. -/
theorem c2_st_poll_ready_returns_zero :
    (st_poll_resume [⟨5, POLLIN, POLLIN⟩] false {}).1 = 0 ∧
      readyCount [⟨5, POLLIN, POLLIN⟩] = 1 ∧ (0 : Int) ≠ 1 := by
  refine ⟨rfl, rfl, by decide⟩

/-- C3: the claim is refuted: `st_thread_create` never reads its `joinable`
argument, so even a thread created with `joinable = true` has a NULL `term`
condition variable, and `st_thread_join` on it fails the detached-thread check
with `EINVAL`. -/
theorem c3_joinable_thread_has_no_term :
    (st_thread_create true).term = none ∧
      st_thread_join_precheck (st_thread_create true) false true = some EINVAL :=
  ⟨rfl, rfl⟩

/-- C4 counterexample: resuming `st_cond_timedwait` with both the interrupt
flag and the timed-out flag set produces `errno = ETIME`, not `EINTR`, because
the timed-out check runs second and overwrites `errno`. -/
theorem c4_counterexample :
    (st_cond_timedwait_resume { interrupt := true, timedout := true }).2.1
      ≠ some EINTR := by decide

/-- C4 amended: TimedOut takes precedence over Interrupted.  Whenever the
timed-out flag is set at resume, `st_cond_timedwait` fails with `ETIME` (even
if the interrupt flag is also set); the Interrupted error is produced exactly
when the interrupt flag is set and the timed-out flag is not. -/
theorem c4_timedout_takes_precedence (f : StFlags) :
    (f.timedout = true →
      (st_cond_timedwait_resume f).1 = -1 ∧
        (st_cond_timedwait_resume f).2.1 = some ETIME) ∧
    (f.interrupt = true → f.timedout = false →
      (st_cond_timedwait_resume f).1 = -1 ∧
        (st_cond_timedwait_resume f).2.1 = some EINTR) := by
  obtain ⟨p, idl, osq, itr, td⟩ := f
  cases itr <;> cases td <;> simp [st_cond_timedwait_resume]

/-- C4 witness: at the concrete flag word with both bits set, the amended
theorem yields return value `-1` and `errno = ETIME`. -/
theorem c4_witness :
    (st_cond_timedwait_resume { interrupt := true, timedout := true }).1 = -1 ∧
      (st_cond_timedwait_resume { interrupt := true, timedout := true }).2.1
        = some ETIME :=
  (c4_timedout_takes_precedence { interrupt := true, timedout := true }).1 rfl

/-- C5: the claim is refuted: `st_usleep`, `st_cond_timedwait` and
`st_mutex_lock` entered with the interrupt flag already set do fail with
`EINTR`, but none of them clears the flag (only `st_poll` does), so the flag
word still has `interrupt = true` after the early return. -/
theorem c5_entry_interrupt_not_cleared :
    (st_usleep_entry { interrupt := true }).1 = some (-1, EINTR) ∧
      ((st_usleep_entry { interrupt := true }).2).interrupt = true ∧
    (st_cond_timedwait_entry { interrupt := true }).1 = some (-1, EINTR) ∧
      ((st_cond_timedwait_entry { interrupt := true }).2).interrupt = true ∧
    (st_mutex_lock_entry { interrupt := true }).1 = some (-1, EINTR) ∧
      ((st_mutex_lock_entry { interrupt := true }).2).interrupt = true ∧
    ((st_poll_entry { interrupt := true }).2).interrupt = false := by decide

/-- C6: the claim is refuted at a concrete state: signalling a condition
variable whose first waiter called `cond_wait` without a timeout (so it is not
on the sleep heap and its `heap_index` is the zero of its zeroed control
block) makes `_st_cond_signal` call `_ST_DEL_SLEEPQ` anyway, because it tests
`state == _ST_ST_COND_WAIT` instead of the on-sleep-queue flag.  Starting
from a heap that correctly holds one sleeping thread with recorded size `1`,
the signal leaves that thread in the heap but drops the recorded size to `0`,
so the size no longer equals the number of fibers in the heap. -/
theorem c6_cond_signal_breaks_heap_invariant :
    heapCount c6State.sleepq = c6State.sleepqSize ∧
      c6Waiter.flags.onSleepq = false ∧
      (_st_cond_signal 100 c6State).map
          (fun s => (heapCount s.sleepq, s.sleepqSize)) = some (1, 0) ∧
      (1 : Nat) ≠ 0 := by
  exact ⟨rfl, rfl, by decide, by decide⟩

/-- C7: `st_mutex_unlock` called by a non-owner fails with `EPERM` and changes
nothing; called by the owner it hands ownership directly to the first thread
on the wait list in `_ST_ST_LOCK_WAIT` state (the owner field is never `none`
in that case), marks it runnable and appends it to the run queue; with no such
waiter it clears the owner field. -/
theorem c7_mutex_unlock_handoff (cur : Nat) (owner : Option Nat)
    (waitq : List Nat) (st : Nat → Nat) (runq : List Nat) :
    (owner ≠ some cur →
      (st_mutex_unlock cur owner waitq st runq).rv = -1 ∧
      (st_mutex_unlock cur owner waitq st runq).errno = some EPERM ∧
      (st_mutex_unlock cur owner waitq st runq).owner = owner ∧
      (∀ t, (st_mutex_unlock cur owner waitq st runq).st t = st t) ∧
      (st_mutex_unlock cur owner waitq st runq).runq = runq) ∧
    (owner = some cur →
      (∀ w, waitq.find? (fun t => st t == _ST_ST_LOCK_WAIT) = some w →
        (st_mutex_unlock cur owner waitq st runq).rv = 0 ∧
        (st_mutex_unlock cur owner waitq st runq).owner = some w ∧
        (st_mutex_unlock cur owner waitq st runq).st w = _ST_ST_RUNNABLE ∧
        (st_mutex_unlock cur owner waitq st runq).runq = runq ++ [w]) ∧
      (waitq.find? (fun t => st t == _ST_ST_LOCK_WAIT) = none →
        (st_mutex_unlock cur owner waitq st runq).rv = 0 ∧
        (st_mutex_unlock cur owner waitq st runq).owner = none ∧
        (∀ t, (st_mutex_unlock cur owner waitq st runq).st t = st t) ∧
        (st_mutex_unlock cur owner waitq st runq).runq = runq)) := by
  constructor
  · intro h
    simp [st_mutex_unlock, h]
  · intro h
    constructor
    · intro w hw
      have hfind : findLockWait st waitq = some w := by
        rw [findLockWait_eq_find]
        exact hw
      simp [st_mutex_unlock, h, hfind, Function.update_same]
    · intro hw
      have hfind : findLockWait st waitq = none := by
        rw [findLockWait_eq_find]
        exact hw
      simp [st_mutex_unlock, h, hfind]

/-- C7 witness: thread 1 owns the mutex, threads 2 and 3 wait in
`_ST_ST_LOCK_WAIT` order; unlock hands ownership to thread 2, marks it
runnable and appends it to the empty run queue. -/
theorem c7_witness :
    (st_mutex_unlock 1 (some 1) [2, 3]
        (fun n => if n = 1 then _ST_ST_RUNNING else _ST_ST_LOCK_WAIT) []).owner
      = some 2 ∧
    (st_mutex_unlock 1 (some 1) [2, 3]
        (fun n => if n = 1 then _ST_ST_RUNNING else _ST_ST_LOCK_WAIT) []).st 2
      = _ST_ST_RUNNABLE ∧
    (st_mutex_unlock 1 (some 1) [2, 3]
        (fun n => if n = 1 then _ST_ST_RUNNING else _ST_ST_LOCK_WAIT) []).runq
      = [2] := by
  have h := ((c7_mutex_unlock_handoff 1 (some 1) [2, 3]
      (fun n => if n = 1 then _ST_ST_RUNNING else _ST_ST_LOCK_WAIT) []).2 rfl).1 2
    (by decide)
  exact ⟨h.2.1, h.2.2.1, by simpa using h.2.2.2⟩

/-- C8: the claim is refuted at a concrete input: a `st_netfd_poll` waiter
whose awaited `POLLIN` event fired before the deadline (dispatch latched
`POLLIN` and took the waiter off the I/O queue) still fails with `ETIME`,
because `st_poll` returned `0`; the byte-I/O wrappers built on it therefore
see a timeout failure instead of success. -/
theorem c8_netfd_poll_etime_on_ready :
    st_netfd_poll 5 POLLIN POLLIN false {} = (-1, some ETIME) ∧
      (-1, some ETIME) ≠ ((0 : Int), (none : Option Nat)) := by
  exact ⟨rfl, by decide⟩

/-- C9: during `_st_epoll_pollset_del`, every descriptor of the call whose
latched `revents` is nonzero has its three interest reference counts
decremented (once per matching requested bit across the pollfd array) while no
kernel `epoll_ctl` call names it; and whenever an iteration does issue a
kernel call, the computed interest mask of its descriptor changed and that
descriptor's latched `revents` was zero. -/
theorem c9_pollset_del_latched_skip (data : Nat → EpollFdData)
    (pds : List PollFd) (fd : Nat) (h : (data fd).revents ≠ 0) :
    (∀ o ∈ (pollsetDel data pds).2, o.2.1 ≠ fd) ∧
    ((pollsetDel data pds).1 fd).rd =
      (data fd).rd -
        (pds.countP (fun pd => pd.fd == fd && pd.events &&& POLLIN != 0) : Int) ∧
    ((pollsetDel data pds).1 fd).wr =
      (data fd).wr -
        (pds.countP (fun pd => pd.fd == fd && pd.events &&& POLLOUT != 0) : Int) ∧
    ((pollsetDel data pds).1 fd).ex =
      (data fd).ex -
        (pds.countP (fun pd => pd.fd == fd && pd.events &&& POLLPRI != 0) : Int) ∧
    (∀ (d : Nat → EpollFdData) (pd : PollFd) (o : EpollOp × Nat × Nat),
      (pollsetDelStep d pd).2 = some o →
        epollEvents ((pollsetDelStep d pd).1 pd.fd) ≠ epollEvents (d pd.fd) ∧
          (d pd.fd).revents = 0) :=
  ⟨pollsetDel_no_op_latched pds data fd h, pollsetDel_rd pds data fd,
    pollsetDel_wr pds data fd, pollsetDel_ex pds data fd,
    fun d pd o ho =>
      ⟨(pollsetDelStep_op d pd o ho).1, (pollsetDelStep_op d pd o ho).2.1⟩⟩

/-- C9 witness: a descriptor table where fd 3 has one read reference and
latched `revents = 1`; removing a `POLLIN` interest on fd 3 issues no kernel
call and leaves its read count decremented to `0`. -/
theorem c9_witness :
    ((fun _ => (⟨1, 0, 0, 1⟩ : EpollFdData)) 3).revents ≠ 0 ∧
      (∀ o ∈ (pollsetDel (fun _ => (⟨1, 0, 0, 1⟩ : EpollFdData))
          [⟨3, POLLIN, 0⟩]).2, o.2.1 ≠ 3) ∧
      ((pollsetDel (fun _ => (⟨1, 0, 0, 1⟩ : EpollFdData))
          [⟨3, POLLIN, 0⟩]).1 3).rd = 0 :=
  ⟨by decide,
    (c9_pollset_del_latched_skip (fun _ => ⟨1, 0, 0, 1⟩) [⟨3, POLLIN, 0⟩] 3
      (by decide)).1,
    by decide⟩

/-- C10: TLS key validation is asymmetric: for a key `k` with
`key_max ≤ k < ST_KEYS_MAX` (never returned by `st_key_create`),
`st_thread_setspecific` succeeds and stores the value, yet
`st_thread_getspecific` returns NULL; for a created key `k < key_max` the
set-then-get round trip returns the stored value. -/
theorem c10_tls_key_asymmetry (keyMax : Nat) (k : Int) (v : Option Nat)
    (pd : Int → Option Nat) (hk0 : 0 ≤ k) :
    ((keyMax : Int) ≤ k → k < (ST_KEYS_MAX : Int) →
      (st_thread_setspecific k v pd).1 = 0 ∧
      (st_thread_setspecific k v pd).2.2 k = v ∧
      st_thread_getspecific keyMax k (st_thread_setspecific k v pd).2.2 = none) ∧
    (k < (keyMax : Int) → keyMax ≤ ST_KEYS_MAX →
      st_thread_getspecific keyMax k (st_thread_setspecific k v pd).2.2 = v) := by
  constructor
  · intro hge hlt
    obtain ⟨hrv, hstore⟩ := setspecific_stores k v pd hk0 hlt
    refine ⟨hrv, hstore, ?_⟩
    rw [st_thread_getspecific, if_pos (Or.inr hge)]
  · intro hlt hmax
    have hlt16 : k < (ST_KEYS_MAX : Int) := by
      have : (keyMax : Int) ≤ (ST_KEYS_MAX : Int) := by exact_mod_cast hmax
      omega
    obtain ⟨hrv, hstore⟩ := setspecific_stores k v pd hk0 hlt16
    have hcond : ¬ (k < 0 ∨ k ≥ (keyMax : Int)) := by
      push_neg
      exact ⟨hk0, hlt⟩
    rw [st_thread_getspecific, if_neg hcond]
    exact hstore

/-- C10 witness: with one created key (`key_max = 1`), setting key 1 (never
created, since `1 ≥ key_max`) succeeds yet reads back NULL, while the created
key 0 round-trips its stored value. -/
theorem c10_witness :
    st_thread_getspecific 1 1
        (st_thread_setspecific 1 (some 7) (fun _ => none)).2.2 = none ∧
      st_thread_getspecific 1 0
        (st_thread_setspecific 0 (some 9) (fun _ => none)).2.2 = some 9 :=
  ⟨((c10_tls_key_asymmetry 1 1 (some 7) (fun _ => none) (by decide)).1
      (by decide) (by decide)).2.2,
    (c10_tls_key_asymmetry 1 0 (some 9) (fun _ => none) (by decide)).2
      (by decide) (by decide)⟩
